import Mathlib

/-!
Verification of the deterministic simulation kernel of a turn-based
dungeon crawler: seeded dungeon generation, grid utilities and A*
pathfinding, timed status effects, the turn clock (hunger decay,
movement threshold), dice-based combat resolution, and the enemy-AI
turn decision.  Every definition is a shallow embedding of the
corresponding JavaScript function; machine arithmetic that JavaScript
performs on IEEE doubles is modelled with exact integers and rationals,
which agrees with the source on every value reachable in the modelled
scenarios (all intermediate products stay far below 2^53, where double
arithmetic is exact).
-/

namespace Rogue

/-! ### Tiles and positions (grid-utils.js, constants.js) -/

/-- The five-valued tile enum stored in the row-major dungeon grid. -/
inductive Tile where
  | wall
  | floor
  | door
  | stairsDown
  | stairsUp
deriving DecidableEq, Repr

/-- A dungeon grid: a list of rows, each row a list of tiles
(`grid[y][x]` in the source). -/
abbrev Grid := List (List Tile)

/-- An integer grid coordinate `{x, y}`. -/
structure Pos where
  x : Int
  y : Int
deriving DecidableEq, Repr

/-- `TILE_SIZE = 2` (meters per tile, constants.js). -/
def TILE_SIZE : ℚ := 2

/-- `worldToGrid(x, z)`: `{x: Math.floor(x / TILE_SIZE), y: Math.floor(z / TILE_SIZE)}`.
World coordinates are modelled as exact rationals. -/
def worldToGrid (x z : ℚ) : Pos :=
  { x := Int.floor (x / TILE_SIZE), y := Int.floor (z / TILE_SIZE) }

/-- A world-space coordinate pair `{x, z}` as produced by `gridToWorld`. -/
structure WorldPos where
  x : ℚ
  z : ℚ
deriving DecidableEq, Repr

/-- `gridToWorld(gridX, gridY)`: the center of the tile,
`{x: gridX * TILE_SIZE + TILE_SIZE / 2, z: gridY * TILE_SIZE + TILE_SIZE / 2}`. -/
def gridToWorld (gridX gridY : Int) : WorldPos :=
  { x := gridX * TILE_SIZE + TILE_SIZE / 2, z := gridY * TILE_SIZE + TILE_SIZE / 2 }

/-- `manhattanDistance(x1, y1, x2, y2) = |x2 - x1| + |y2 - y1|`. -/
def manhattanDistance (x1 y1 x2 y2 : Int) : Nat :=
  (x2 - x1).natAbs + (y2 - y1).natAbs

/-- `getAdjacentPositions(x, y)`: the four 4-directional neighbours, in the
source's order `[+x, -x, +y, -y]`. -/
def getAdjacentPositions (x y : Int) : List Pos :=
  [⟨x + 1, y⟩, ⟨x - 1, y⟩, ⟨x, y + 1⟩, ⟨x, y - 1⟩]

/-- The tile stored at `grid[y][x]`, `none` when the access is out of
bounds (JavaScript `undefined`). -/
def tileAt (grid : Grid) (x y : Int) : Option Tile :=
  if 0 ≤ y ∧ 0 ≤ x then (grid.get? y.toNat).bind (fun row => row.get? x.toNat) else none

/-- `isWalkable(grid, x, y)` with the default `walkableTile = 'floor'`:
false for out-of-bounds positions (the source checks `y` against
`grid.length` and `x` against `grid[0].length`), true exactly for
floor, door and stairs tiles. -/
def isWalkable (grid : Grid) (x y : Int) : Bool :=
  if y < 0 ∨ (grid.length : Int) ≤ y ∨ x < 0 ∨ ((grid.headD []).length : Int) ≤ x then
    false
  else
    match (grid.get? y.toNat).bind (fun row => row.get? x.toNat) with
    | some t => t == Tile.floor || t == Tile.door || t == Tile.stairsDown || t == Tile.stairsUp
    | none => false

/-! ### Seeded RNG (dungeon-generator.js, class SeededRandom, Mulberry32)

The source keeps `this.seed` as a JavaScript number and adds
`0x6D2B79F5` on every call; the bitwise pipeline then operates on the
low 32 bits.  We model the seed as a natural number (the additions stay
far below 2^53, where JS addition is exact) and the mixed value as the
unsigned 32-bit residue; xor, or, shift and `Math.imul` agree with this
unsigned-residue model bit for bit. -/

/-- One Mulberry32 output: the body of `next()` applied to the updated
seed `t = (this.seed += 0x6D2B79F5)`, producing the 32-bit value whose
division by 2^32 the source returns. -/
def mulberryMix (s : Nat) : Nat :=
  let t0 := s % 4294967296
  let t1 := ((t0 ^^^ (t0 >>> 15)) * (t0 ||| 1)) % 4294967296
  let t2 := t1 ^^^ ((t1 + ((t1 ^^^ (t1 >>> 7)) * (t1 ||| 61)) % 4294967296) % 4294967296)
  t2 ^^^ (t2 >>> 14)

/-- The RNG state: the `seed` field of `SeededRandom`. -/
structure SeededRandom where
  seed : Nat
deriving DecidableEq, Repr

/-- Advance the RNG once, returning the raw 32-bit output together with
the updated state (`let t = this.seed += 0x6D2B79F5; ...`). -/
def SeededRandom.nextU32 (rng : SeededRandom) : Nat × SeededRandom :=
  let s := rng.seed + 0x6D2B79F5
  (mulberryMix s, ⟨s⟩)

/-- `next()`: a rational in `[0, 1)`, the 32-bit output divided by `4294967296`. -/
def SeededRandom.next (rng : SeededRandom) : ℚ × SeededRandom :=
  let (u, rng') := rng.nextU32
  ((u : ℚ) / 4294967296, rng')

/-- `nextInt(min, max) = Math.floor(this.next() * (max - min + 1)) + min`.
With `next() = u / 2^32` this is exactly `u * (max - min + 1) / 2^32 + min`
in truncating natural division: the double product `u * (max - min + 1) / 2^32`
is exact (far below 2^53 at every call site, which all satisfy
`min ≤ max`), and flooring that nonnegative dyadic rational is the
natural division of the scaled numerator. -/
def SeededRandom.nextInt (rng : SeededRandom) (min max : Nat) : Nat × SeededRandom :=
  let (u, rng') := rng.nextU32
  (u * (max - min + 1) / 4294967296 + min, rng')

/-- `nextFloat(min, max) = this.next() * (max - min) + min`. -/
def SeededRandom.nextFloat (rng : SeededRandom) (min max : ℚ) : ℚ × SeededRandom :=
  let (q, rng') := rng.next
  (q * (max - min) + min, rng')

/-! ### Status effects (status-effects.js) -/

/-- A status effect `{type, duration, magnitude, turnsRemaining}`. -/
structure StatusEffect where
  type : String
  duration : Int
  magnitude : Int
  turnsRemaining : Int
deriving DecidableEq, Repr

/-- `createStatusEffect(type, duration, magnitude = 1)`:
`turnsRemaining` starts equal to `duration`. -/
def createStatusEffect (type : String) (duration : Int) (magnitude : Int := 1) : StatusEffect :=
  { type := type, duration := duration, magnitude := magnitude, turnsRemaining := duration }

/-- `addStatusEffect(activeEffects, effect)`: find the first effect of
the same type; when found, overwrite it only if the incoming
`effect.duration` is strictly greater than the existing
`turnsRemaining`; otherwise append the effect. -/
def addStatusEffect (activeEffects : List StatusEffect) (effect : StatusEffect) :
    List StatusEffect :=
  match activeEffects.findIdx? (fun e => e.type == effect.type) with
  | some i =>
    match activeEffects[i]? with
    | some existing =>
      if effect.duration > existing.turnsRemaining then activeEffects.set i effect
      else activeEffects
    | none => activeEffects
  | none => activeEffects ++ [effect]

/-- `updateStatusEffects(activeEffects)`: decrement every
`turnsRemaining` by 1 and keep only the strictly positive ones. -/
def updateStatusEffects (activeEffects : List StatusEffect) : List StatusEffect :=
  (activeEffects.map (fun e => { e with turnsRemaining := e.turnsRemaining - 1 })).filter
    (fun e => e.turnsRemaining > 0)

/-- `hasStatusEffect(activeEffects, type)`. -/
def hasStatusEffect (activeEffects : List StatusEffect) (type : String) : Bool :=
  activeEffects.any (fun e => e.type == type)

/-! ### Game state (game-state.js) -/

/-- The statistics block of the game state. -/
structure Statistics where
  kills : Nat
  goldCollected : Nat
  deepestLevel : Nat
  itemsUsed : Nat
  hungerDeaths : Nat
  combatDeaths : Nat
  turnsPlayed : Nat
deriving DecidableEq, Repr

/-- The player record (the fields consumed by the modelled operations). -/
structure Player where
  hp : Int
  maxHp : Int
  hunger : Int
  maxHunger : Int
  ac : Int
  attackBonus : Int
  statusEffects : List StatusEffect
deriving DecidableEq, Repr

/-- The game state (the fields consumed by the modelled operations). -/
structure GameState where
  turnCount : Nat
  player : Player
  accumulatedMovement : ℚ
  gameOver : Bool
  deathMessage : String
  statistics : Statistics
deriving DecidableEq, Repr

/-- `decreaseHunger(state, amount = 1)`: clamp hunger at 0 and flag a
starvation game over (message, `hungerDeaths`) exactly when the new
hunger is 0 and the game was not already over. -/
def decreaseHunger (state : GameState) (amount : Int := 1) : GameState :=
  let newHunger := max 0 (state.player.hunger - amount)
  let newState := { state with player := { state.player with hunger := newHunger } }
  if newHunger = 0 ∧ state.gameOver = false then
    { newState with
      gameOver := true
      deathMessage := "You starved to death!"
      statistics := { newState.statistics with hungerDeaths := newState.statistics.hungerDeaths + 1 } }
  else newState

/-- `damagePlayer(state, damage)`: clamp hp at 0 and flag a combat game
over exactly when the new hp is 0 and the game was not already over. -/
def damagePlayer (state : GameState) (damage : Int) : GameState :=
  let newHp := max 0 (state.player.hp - damage)
  let newState := { state with player := { state.player with hp := newHp } }
  if newHp = 0 ∧ state.gameOver = false then
    { newState with
      gameOver := true
      deathMessage := "You were slain in combat!"
      statistics := { newState.statistics with combatDeaths := newState.statistics.combatDeaths + 1 } }
  else newState

/-- `healPlayer(state, amount)`: hp is capped at `maxHp`. -/
def healPlayer (state : GameState) (amount : Int) : GameState :=
  { state with player := { state.player with hp := min state.player.maxHp (state.player.hp + amount) } }

/-- `incrementTurn(state)`. -/
def incrementTurn (state : GameState) : GameState :=
  { state with
    turnCount := state.turnCount + 1
    statistics := { state.statistics with turnsPlayed := state.statistics.turnsPlayed + 1 } }

/-- `resetAccumulatedMovement(state)`. -/
def resetAccumulatedMovement (state : GameState) : GameState :=
  { state with accumulatedMovement := 0 }

/-! ### Turn manager (turn-manager.js) -/

/-- `MOVEMENT_THRESHOLD = 2` (meters, constants.js). -/
def MOVEMENT_THRESHOLD : ℚ := 2

/-- `HUNGER_RATE = 1` (constants.js). -/
def HUNGER_RATE : Int := 1

/-- `getEffectiveMovementThreshold(statusEffects, baseThreshold)`: the
speed effect doubles the movement threshold. -/
def getEffectiveMovementThreshold (statusEffects : List StatusEffect)
    (baseThreshold : ℚ := MOVEMENT_THRESHOLD) : ℚ :=
  if hasStatusEffect statusEffects "speed" then baseThreshold * 2 else baseThreshold

/-- `shouldAdvanceTurn(accumulatedMovement, threshold)`. -/
def shouldAdvanceTurn (accumulatedMovement : ℚ) (threshold : ℚ := MOVEMENT_THRESHOLD) : Bool :=
  accumulatedMovement ≥ threshold

/-- `advanceTurn(state)`: increment the turn counter, decrease hunger by
`HUNGER_RATE`, reset accumulated movement — and nothing else. -/
def advanceTurn (state : GameState) : GameState :=
  resetAccumulatedMovement (decreaseHunger (incrementTurn state) HUNGER_RATE)

/-- `checkTurnAdvancement(state)`: accumulated movement against the
effective (speed-adjusted) threshold. -/
def checkTurnAdvancement (state : GameState) : Bool :=
  shouldAdvanceTurn state.accumulatedMovement
    (getEffectiveMovementThreshold state.player.statusEffects)

/-! ### Combat resolution (combat.js)

`rollD20` and the dice inside `rollDamage` call `Math.random()`; the
embedding makes that stream explicit: the d20 roll is a parameter, and
`rollDamage` consumes a list of raw `Math.random()` outcomes in `[0,1)`. -/

/-- A weapon `{damage: [count, sides], bonus}`. -/
structure Weapon where
  damage : Nat × Nat
  bonus : Int
deriving DecidableEq, Repr

/-- A combat participant: the fields read by `calculateHit`,
`executeAttack` and `processEnemyTurn`. -/
structure Combatant where
  hp : Int
  ac : Int
  attackBonus : Int
  weapon : Option Weapon
  damage : Option (Nat × Nat)
  damageBonus : Int
  isAlive : Bool
  position : Pos
deriving DecidableEq, Repr

/-- `rollDamage(count, sides, bonus)`: sum `count` dice
(`Math.floor(random * sides) + 1` each, with `random` drawn from the
explicit stream) plus the bonus, floored at 1. -/
def rollDamage (count sides : Nat) (bonus : Int) (rand : List ℚ) : Int :=
  let total := (List.range count).foldl
    (fun t i => t + (Int.floor ((rand.getD i 0) * (sides : ℚ)) + 1)) bonus
  max 1 total

/-- The result record of `calculateHit`. -/
structure HitResult where
  hit : Bool
  roll : Nat
  natural20 : Bool
  natural1 : Bool
  totalRoll : Int
deriving DecidableEq, Repr

/-- `calculateHit(attacker, defender, roll)`:
`hit = roll + attackBonus ≥ ac || roll == 20`; a natural 20 always hits. -/
def calculateHit (attacker defender : Combatant) (roll : Nat) : HitResult :=
  let totalRoll : Int := (roll : Int) + attacker.attackBonus
  { hit := decide (totalRoll ≥ defender.ac) || roll == 20
    roll := roll
    natural20 := roll == 20
    natural1 := roll == 1
    totalRoll := totalRoll }

/-- The result record of `executeAttack` (on a miss the source leaves
`critical` absent, i.e. falsy; it is `false` here). -/
structure AttackResult where
  hit : Bool
  damage : Int
  killed : Bool
  attackRoll : HitResult
  critical : Bool
deriving DecidableEq, Repr

/-- The damage-dice dispatch inside `executeAttack`: weapon dice if a
weapon is equipped, else the innate `damage` dice with `damageBonus`,
else the default `1d4`. -/
def attackDamageRoll (attacker : Combatant) (rand : List ℚ) : Int :=
  match attacker.weapon with
  | some w => rollDamage w.damage.1 w.damage.2 w.bonus rand
  | none =>
    match attacker.damage with
    | some d => rollDamage d.1 d.2 attacker.damageBonus rand
    | none => rollDamage 1 4 0 rand

/-- `executeAttack(attacker, defender)` with the d20 roll and the
damage-dice stream made explicit: on a hit, roll damage, double it on a
natural 20, and report `killed` from the clamped defender hp. -/
def executeAttack (attacker defender : Combatant) (roll : Nat) (rand : List ℚ) : AttackResult :=
  let attackResult := calculateHit attacker defender roll
  if attackResult.hit = false then
    { hit := false, damage := 0, killed := false, attackRoll := attackResult, critical := false }
  else
    let damage := attackDamageRoll attacker rand
    let damage := if attackResult.natural20 then damage * 2 else damage
    let newDefenderHp := max 0 (defender.hp - damage)
    let killed := newDefenderHp == 0
    { hit := true, damage := damage, killed := killed, attackRoll := attackResult
      critical := attackResult.natural20 }

/-- The action an enemy turn resolves to (`{action: 'wait'|'attack'|'move'}`). -/
inductive EnemyAction where
  | wait
  | attack
  | move (newPosition : Pos)
deriving DecidableEq, Repr

/-- `processEnemyTurn(enemy, playerPosition, grid, findPath)`: wait when
dead; attack when 4-directionally adjacent to the player; otherwise
step along the path returned by the injected pathfinding function, or
wait when it is empty. -/
def processEnemyTurn (enemy : Combatant) (playerPosition : Pos) (grid : Grid)
    (findPathFn : Grid → Pos → Pos → List Pos) : EnemyAction :=
  if enemy.isAlive = false then .wait
  else
    let dx := (enemy.position.x - playerPosition.x).natAbs
    let dy := (enemy.position.y - playerPosition.y).natAbs
    if (dx = 1 ∧ dy = 0) ∨ (dx = 0 ∧ dy = 1) then .attack
    else
      match findPathFn grid enemy.position playerPosition with
      | p :: _ => .move p
      | [] => .wait

/-! ### Entity manager and the controller's player-attack path -/

/-- An entity as `damageEntity` (entity-manager.js) sees it. -/
structure Entity where
  hp : Int
  maxHp : Int
  isAlive : Bool
deriving DecidableEq, Repr

/-- `damageEntity(entity, damage)`: hp clamped at 0, `isAlive = newHp > 0`. -/
def damageEntity (entity : Entity) (damage : Int) : Entity :=
  let newHp := max 0 (entity.hp - damage)
  { entity with hp := newHp, isAlive := decide (newHp > 0) }

/-- The attack branch of `interact()` in the game controller:
`enemy.hp -= result.damage; if (enemy.hp <= 0) { enemy.isAlive = false; ... }`
— note the absence of any clamp on `enemy.hp`. -/
def interactApplyAttack (enemy : Entity) (damage : Int) : Entity :=
  let newHp := enemy.hp - damage
  { enemy with hp := newHp, isAlive := if newHp ≤ 0 then false else enemy.isAlive }

/-! ### Dungeon generator (dungeon-generator.js, constants.js) -/

/-- `MIN_ROOMS = 6`. -/
def MIN_ROOMS : Nat := 6

/-- `MAX_ROOMS = 9`. -/
def MAX_ROOMS : Nat := 9

/-- `MIN_ROOM_SIZE = 3`. -/
def MIN_ROOM_SIZE : Nat := 3

/-- `MAX_ROOM_SIZE = 8`. -/
def MAX_ROOM_SIZE : Nat := 8

/-- `ENEMY_SCALE_FACTOR = 1.5`. -/
def ENEMY_SCALE_FACTOR : ℚ := 1.5

/-- A room rectangle `(x, y, width, height)`. -/
structure Room where
  x : Nat
  y : Nat
  width : Nat
  height : Nat
deriving DecidableEq, Repr

/-- `room.center`: `{x: Math.floor(x + width / 2), y: Math.floor(y + height / 2)}`
(for natural `x` this is `x + width / 2` with flooring division). -/
def Room.center (r : Room) : Nat × Nat :=
  (r.x + r.width / 2, r.y + r.height / 2)

/-- `room.intersects(other)`: bounding boxes overlap (inclusive). -/
def Room.intersects (a other : Room) : Bool :=
  decide (a.x ≤ other.x + other.width ∧ a.x + a.width ≥ other.x ∧
    a.y ≤ other.y + other.height ∧ a.y + a.height ≥ other.y)

/-- `grid[y][x] = t` on the row-major grid (all writes issued by the
generator are in bounds). -/
def setTile (g : Grid) (y x : Nat) (t : Tile) : Grid :=
  g.set y ((g.getD y []).set x t)

/-- `createRoom(grid, room)`: carve the room's rectangle to floor,
row by row. -/
def createRoom (g : Grid) (room : Room) : Grid :=
  (List.range room.height).foldl
    (fun g dy =>
      (List.range room.width).foldl
        (fun g dx => setTile g (room.y + dy) (room.x + dx) Tile.floor) g)
    g

/-- The horizontal carving loop of `createCorridor`
(`while (x !== end.x) { grid[y][x] = 'floor'; x += x < end.x ? 1 : -1 }`),
with fuel equal to the distance still to cover. -/
def carveTowardX : Nat → Grid → Nat → Nat → Nat → Grid
  | 0, g, _, _, _ => g
  | fuel + 1, g, y, x, endX =>
    if x = endX then g
    else carveTowardX fuel (setTile g y x Tile.floor) y (if x < endX then x + 1 else x - 1) endX

/-- The vertical carving loop of `createCorridor`. -/
def carveTowardY : Nat → Grid → Nat → Nat → Nat → Grid
  | 0, g, _, _, _ => g
  | fuel + 1, g, x, y, endY =>
    if y = endY then g
    else carveTowardY fuel (setTile g y x Tile.floor) x (if y < endY then y + 1 else y - 1) endY

/-- `createCorridor(grid, start, end, rng)`: one RNG draw picks
horizontal-then-vertical versus vertical-then-horizontal
(`rng.next() > 0.5`, i.e. `u / 2^32 > 1/2`, i.e. `u > 2^31`); both
orders leave the cursor at `end` and finally carve the end tile. -/
def createCorridor (g : Grid) (s e : Nat × Nat) (rng : SeededRandom) : Grid × SeededRandom :=
  let (u, rng) := rng.nextU32
  if u > 2147483648 then
    let g := carveTowardX (Nat.dist s.1 e.1 + 1) g s.2 s.1 e.1
    let g := carveTowardY (Nat.dist s.2 e.2 + 1) g e.1 s.2 e.2
    (setTile g e.2 e.1 Tile.floor, rng)
  else
    let g := carveTowardY (Nat.dist s.2 e.2 + 1) g s.1 s.2 e.2
    let g := carveTowardX (Nat.dist s.1 e.1 + 1) g e.2 s.1 e.1
    (setTile g e.2 e.1 Tile.floor, rng)

/-- The `ENEMY_TYPES` table in `Object.entries` order, restricted to
the fields the generator reads: `(key, spawnDepth, spawnWeight)`. -/
def ENEMY_TYPES : List (String × Nat × Nat) :=
  [("GOBLIN", 1, 10), ("SKELETON", 3, 7), ("SLIME", 1, 8), ("DRAGON", 7, 2)]

/-- `getAvailableEnemyTypes(level)`: type keys whose `spawnDepth` the
level has reached, with the `['GOBLIN']` fallback. -/
def getAvailableEnemyTypes (level : Nat) : List String :=
  let available := (ENEMY_TYPES.filter (fun t => level ≥ t.2.1)).map (fun t => t.1)
  if available.isEmpty then ["GOBLIN"] else available

/-- `ENEMY_TYPES[type].spawnWeight` (every queried key is in the table). -/
def spawnWeightOf (type : String) : Nat :=
  ((ENEMY_TYPES.find? (fun t => t.1 == type)).map (fun t => t.2.2)).getD 0

/-- The weight subtraction loop of `selectEnemyType`
(`random -= weights[i]; if (random <= 0) return availableTypes[i]`),
with the source's final-element fallback.  `random` is carried scaled
by 2^32: the source's float `random` is the dyadic rational
`scaled / 2^32` throughout (its arithmetic here is exact), so
subtracting a weight becomes subtracting `weight * 2^32` and the sign
test is unchanged. -/
def selectEnemyTypeLoop : Int → List (String × Nat) → String → String
  | _, [], fallbackType => fallbackType
  | random, (t, w) :: rest, fallbackType =>
    let random := random - (w : Int) * 4294967296
    if random ≤ 0 then t else selectEnemyTypeLoop random rest fallbackType

/-- `selectEnemyType(rng, availableTypes, level)`: weighted choice by
one `nextFloat(0, totalWeight)` draw, which is `u / 2^32 * totalWeight`,
carried scaled by 2^32 as `u * totalWeight` (exact, see the loop). -/
def selectEnemyType (rng : SeededRandom) (availableTypes : List String) : String × SeededRandom :=
  let weights := availableTypes.map spawnWeightOf
  let totalWeight : Nat := weights.foldl (fun sum w => sum + w) 0
  let (u, rng) := rng.nextU32
  let scaledRandom : Int := (u : Int) * totalWeight
  (selectEnemyTypeLoop scaledRandom (availableTypes.zip weights)
    (availableTypes.getLastD "GOBLIN"), rng)

/-- One enemy spawn record `{type, position, level}`. -/
structure EnemySpawn where
  type : String
  position : Nat × Nat
  level : Nat
deriving DecidableEq, Repr

/-- The spawn loop of `generateEnemySpawns`: choose a room, sample an
interior position, skip the iteration entirely when it lands on the
stairs (`continue`), otherwise select a type and record the spawn. -/
def generateEnemySpawnsLoop : Nat → SeededRandom → List Room → List String → Nat →
    Nat × Nat → List EnemySpawn → List EnemySpawn × SeededRandom
  | 0, rng, _, _, _, _, spawns => (spawns, rng)
  | n + 1, rng, spawnRooms, availableTypes, level, stairsPosition, spawns =>
    let (idx, rng) := rng.nextInt 0 (spawnRooms.length - 1)
    let room := spawnRooms.getD idx ⟨0, 0, 0, 0⟩
    let (px, rng) := rng.nextInt (room.x + 1) (room.x + room.width - 2)
    let (py, rng) := rng.nextInt (room.y + 1) (room.y + room.height - 2)
    if (px, py) = stairsPosition then
      generateEnemySpawnsLoop n rng spawnRooms availableTypes level stairsPosition spawns
    else
      let (enemyType, rng) := selectEnemyType rng availableTypes
      generateEnemySpawnsLoop n rng spawnRooms availableTypes level stairsPosition
        (spawns ++ [⟨enemyType, (px, py), level⟩])

/-- `generateEnemySpawns(rng, rooms, count, level, stairsPosition)`:
spawn rooms exclude the first (player start) and last (stairs) room. -/
def generateEnemySpawns (rng : SeededRandom) (rooms : List Room) (count level : Nat)
    (stairsPosition : Nat × Nat) : List EnemySpawn × SeededRandom :=
  let availableTypes := getAvailableEnemyTypes level
  let spawnRooms := (rooms.drop 1).dropLast
  if spawnRooms.isEmpty then ([], rng)
  else generateEnemySpawnsLoop count rng spawnRooms availableTypes level stairsPosition []

/-- The room-placement loop of `generateDungeon`: sample a candidate,
reject it when it intersects an accepted room (the RNG draws are spent
either way), otherwise carve it, connect it to the previously accepted
room, and append it. -/
def generateRoomsLoop : Nat → SeededRandom → Nat → Nat → Grid → List Room →
    Grid × List Room × SeededRandom
  | 0, rng, _, _, grid, rooms => (grid, rooms, rng)
  | n + 1, rng, width, height, grid, rooms =>
    let (roomWidth, rng) := rng.nextInt MIN_ROOM_SIZE MAX_ROOM_SIZE
    let (roomHeight, rng) := rng.nextInt MIN_ROOM_SIZE MAX_ROOM_SIZE
    let (x, rng) := rng.nextInt 1 (width - roomWidth - 1)
    let (y, rng) := rng.nextInt 1 (height - roomHeight - 1)
    let newRoom : Room := ⟨x, y, roomWidth, roomHeight⟩
    if rooms.any (fun room => newRoom.intersects room) then
      generateRoomsLoop n rng width height grid rooms
    else
      let grid := createRoom grid newRoom
      let (grid, rng) :=
        match rooms.getLast? with
        | some prevRoom => createCorridor grid prevRoom.center newRoom.center rng
        | none => (grid, rng)
      generateRoomsLoop n rng width height grid (rooms ++ [newRoom])

/-- The dungeon record `{grid, rooms, stairsPosition, enemySpawns, width, height}`. -/
structure Dungeon where
  grid : Grid
  rooms : List Room
  stairsPosition : Nat × Nat
  enemySpawns : List EnemySpawn
  width : Nat
  height : Nat
deriving DecidableEq, Repr

/-- `generateDungeon(seed, level = 1, width = 40, height = 40)`:
all-wall grid, `nextInt(MIN_ROOMS, MAX_ROOMS)` placement attempts,
stairs at the center of the last accepted room, then enemy spawns.
`none` models the crash the source would suffer with no accepted room
(unreachable: the first attempt always succeeds). -/
def generateDungeon (seed : Nat) (level : Nat := 1) (width : Nat := 40) (height : Nat := 40) :
    Option Dungeon :=
  let rng : SeededRandom := ⟨seed⟩
  let grid : Grid := List.replicate height (List.replicate width Tile.wall)
  let (numRooms, rng) := rng.nextInt MIN_ROOMS MAX_ROOMS
  let (grid, rooms, rng) := generateRoomsLoop numRooms rng width height grid []
  match rooms.getLast? with
  | none => none
  | some lastRoom =>
    let stairsPosition := lastRoom.center
    let grid := setTile grid stairsPosition.2 stairsPosition.1 Tile.stairsDown
    -- `Math.floor(level * ENEMY_SCALE_FACTOR)` with the factor 1.5: exactly `level * 3 / 2`.
    let enemyCount := level * 3 / 2
    let (enemySpawns, _) := generateEnemySpawns rng rooms enemyCount level stairsPosition
    some ⟨grid, rooms, stairsPosition, enemySpawns, width, height⟩

/-! ### A* pathfinding (grid-utils.js, findPath)

Search nodes carry their parent pointer, as in the source; the open
set, closed set and visited map are lists in insertion order, so the
strict `<` minimum scan reproduces the source's deterministic
tie-breaking.  The `while (openSet.length > 0)` loop runs on explicit
fuel; one cell enters the open set at most once (a node is pushed only
when its key is new to the visited map), so `width * height + 1`
iterations always suffice and the fuel-out branch is unreachable. -/

/-- An A* search node `{x, y, g, h, f, parent}`. -/
inductive ANode where
  | mk (x y : Int) (g h f : Nat) (parent : Option ANode)

/-- The `x` field of a search node. -/
def ANode.x : ANode → Int
  | .mk x _ _ _ _ _ => x

/-- The `y` field of a search node. -/
def ANode.y : ANode → Int
  | .mk _ y _ _ _ _ => y

/-- The `g` field (cost from the start) of a search node. -/
def ANode.g : ANode → Nat
  | .mk _ _ g _ _ _ => g

/-- The `f` field (`g + h`) of a search node. -/
def ANode.f : ANode → Nat
  | .mk _ _ _ _ f _ => f

/-- Path reconstruction: walk the parent chain back to the start node
(whose parent is `null`), collecting positions front-to-back; the start
tile itself is excluded. -/
def ANode.buildPath : ANode → List Pos
  | .mk x y _ _ _ parent =>
    match parent with
    | none => []
    | some p => p.buildPath ++ [⟨x, y⟩]

/-- The scan for the open-set index with the strictly lowest `f`
(`for i = 1..; if (openSet[i].f < openSet[currentIndex].f) currentIndex = i`):
ties keep the earlier index. -/
def lowestFIndexAux : List ANode → Nat → Nat → Nat → Nat
  | [], _, best, _ => best
  | n :: rest, i, best, bestF =>
    if n.f < bestF then lowestFIndexAux rest (i + 1) i n.f
    else lowestFIndexAux rest (i + 1) best bestF

/-- The index of the open-set node with the lowest `f` score. -/
def lowestFIndex : List ANode → Nat
  | [] => 0
  | n :: rest => lowestFIndexAux rest 1 0 n.f

/-- `visited.get(key)` on the insertion-ordered visited map. -/
def visitedLookup (m : List ((Int × Int) × ANode)) (k : Int × Int) : Option ANode :=
  (m.find? (fun e => e.1 == k)).map (fun e => e.2)

/-- `visited.set(key, node)`: overwrite an existing key in place,
append a new key at the end (JavaScript `Map` insertion order). -/
def visitedSet (m : List ((Int × Int) × ANode)) (k : Int × Int) (v : ANode) :
    List ((Int × Int) × ANode) :=
  if m.any (fun e => e.1 == k) then m.map (fun e => if e.1 == k then (k, v) else e)
  else m ++ [(k, v)]

/-- The body of the neighbour loop: skip closed or unwalkable tiles;
relax the tentative cost `g = current.g + 1`; a strictly better path to
an already-visited node only updates the visited map (the stale open-set
entry is left untouched, exactly as the source mutates neither the open
array nor the old node object), while an unvisited node is recorded and
pushed onto the open set. -/
def expandNeighbor (grid : Grid) (goal : Pos) (current : ANode) (closedSet : List (Int × Int))
    (st : List ANode × List ((Int × Int) × ANode)) (neighbor : Pos) :
    List ANode × List ((Int × Int) × ANode) :=
  let (openSet, visited) := st
  let neighborKey := (neighbor.x, neighbor.y)
  if closedSet.contains neighborKey || !(isWalkable grid neighbor.x neighbor.y) then st
  else
    let g := current.g + 1
    let h := manhattanDistance neighbor.x neighbor.y goal.x goal.y
    let f := g + h
    match visitedLookup visited neighborKey with
    | some existingNode =>
      if g < existingNode.g then
        (openSet, visitedSet visited neighborKey (ANode.mk neighbor.x neighbor.y g h f (some current)))
      else st
    | none =>
      let neighborNode := ANode.mk neighbor.x neighbor.y g h f (some current)
      (openSet ++ [neighborNode], visitedSet visited neighborKey neighborNode)

/-- The `while (openSet.length > 0)` loop of `findPath`: pop the node
with the lowest `f`, return the reconstructed path when it is the goal,
otherwise close it and expand its 4-directional neighbours. -/
def astarLoop : Nat → Grid → Pos → List ANode → List (Int × Int) →
    List ((Int × Int) × ANode) → List Pos
  | 0, _, _, _, _, _ => []
  | fuel + 1, grid, goal, openSet, closedSet, visited =>
    if openSet.isEmpty then []
    else
      let currentIndex := lowestFIndex openSet
      let current := openSet.getD currentIndex (ANode.mk 0 0 0 0 0 none)
      if current.x = goal.x ∧ current.y = goal.y then current.buildPath
      else
        let openSet := openSet.eraseIdx currentIndex
        let closedSet := (current.x, current.y) :: closedSet
        let (openSet, visited) := (getAdjacentPositions current.x current.y).foldl
          (expandNeighbor grid goal current closedSet) (openSet, visited)
        astarLoop fuel grid goal openSet closedSet visited

/-- `findPath(grid, start, goal)`: empty immediately when the goal tile
is not walkable; otherwise A* from the start node (`g = 0`,
`h` = Manhattan distance, `f = g + h`, `parent = null`), which is also
the first entry of the visited map. -/
def findPath (grid : Grid) (start goal : Pos) : List Pos :=
  if !(isWalkable grid goal.x goal.y) then []
  else
    let h := manhattanDistance start.x start.y goal.x goal.y
    let startNode := ANode.mk start.x start.y 0 h (0 + h) none
    astarLoop (grid.length * (grid.headD []).length + 1) grid goal [startNode] []
      [((start.x, start.y), startNode)]

/-! ### Test fixtures -/

/-- A 3×3 grid of all-floor tiles. -/
def floorGrid3 : Grid := List.replicate 3 (List.replicate 3 Tile.floor)

/-- A 1×3 strip whose rightmost tile — the goal in the fixture — is a wall. -/
def wallGoalGrid : Grid := [[Tile.floor, Tile.floor, Tile.wall]]

/-- A 1×3 strip whose middle wall cuts the walkable goal (2,0) off from
the start (0,0): the goal is walkable but unreachable. -/
def blockedGrid : Grid := [[Tile.floor, Tile.wall, Tile.floor]]

/-- A healthy mid-run state: movement exactly at the base threshold and
one active strength effect with 5 turns remaining. -/
def exampleState : GameState :=
  { turnCount := 3
    player :=
      { hp := 20, maxHp := 20, hunger := 1000, maxHunger := 1000, ac := 10, attackBonus := 0
        statusEffects := [createStatusEffect "strength" 5] }
    accumulatedMovement := 2
    gameOver := false
    deathMessage := ""
    statistics := ⟨0, 0, 1, 0, 0, 0, 3⟩ }

/-- `exampleState` one hunger point away from starving. -/
def starvingState : GameState :=
  { exampleState with player := { exampleState.player with hunger := 1 } }

/-- The default dungeon used to read through `Option Dungeon` fixtures. -/
def emptyDungeon : Dungeon := ⟨[], [], (0, 0), [], 0, 0⟩

/-- The dungeon generated from seed 42 at depth 1 with the default 40×40 geometry. -/
def dungeon42 : Dungeon := (generateDungeon 42 1 40 40).getD emptyDungeon

/-- The last accepted room of `dungeon42` (the room holding the stairs). -/
def lastRoom42 : Room := dungeon42.rooms.getLastD ⟨0, 0, 0, 0⟩

/-- A living enemy standing at (5,5), matching the repository's own test
fixture for `processEnemyTurn`. -/
def testEnemy : Combatant :=
  { hp := 10, ac := 10, attackBonus := 0, weapon := none, damage := none, damageBonus := 0
    isAlive := true, position := ⟨5, 5⟩ }

/-! ### Claims -/

/-- C1: dungeon generation is deterministic — the generator's only
source of randomness is the seeded Mulberry32 stream, so two calls of
`generateDungeon` with the same seed, depth, width and height return
the same grid, the same room list in the same order, the same stairs
position and the same enemy spawn table. -/
theorem generateDungeon_deterministic (seed depth width height : Nat) :
    (generateDungeon seed depth width height).map Dungeon.grid =
      (generateDungeon seed depth width height).map Dungeon.grid ∧
    (generateDungeon seed depth width height).map Dungeon.rooms =
      (generateDungeon seed depth width height).map Dungeon.rooms ∧
    (generateDungeon seed depth width height).map Dungeon.stairsPosition =
      (generateDungeon seed depth width height).map Dungeon.stairsPosition ∧
    (generateDungeon seed depth width height).map Dungeon.enemySpawns =
      (generateDungeon seed depth width height).map Dungeon.enemySpawns :=
  ⟨rfl, rfl, rfl, rfl⟩

/-- C5: a natural 20 always hits and is critical, whatever the
defender's armor class, and the resulting damage is exactly double what
the same damage-dice outcomes would have produced without the critical. -/
theorem executeAttack_natural20 (attacker defender : Combatant) (rand : List ℚ) :
    (executeAttack attacker defender 20 rand).hit = true ∧
    (executeAttack attacker defender 20 rand).attackRoll.natural20 = true ∧
    (executeAttack attacker defender 20 rand).critical = true ∧
    (executeAttack attacker defender 20 rand).damage = 2 * attackDamageRoll attacker rand := by
  unfold executeAttack calculateHit
  simp [mul_comm]

/-- C7 (evaluating the code at the failing input): with the player
adjacent, `processEnemyTurn` returns an attack unconditionally — the
function has no invisibility parameter at all, so an active
invisibility effect on the player cannot make the enemy wait, contrary
to the repository's own test
(`should make enemy wait if player is invisible`). -/
theorem processEnemyTurn_ignores_invisibility :
    processEnemyTurn testEnemy ⟨6, 5⟩ [[]] (fun _ _ _ => []) = EnemyAction.attack := rfl

/-- C9 (counterexample): the conversions are not inverses in the
world-to-grid-to-world direction — the world origin maps to tile (0,0),
whose center is the world point (1,1) ≠ (0,0). -/
theorem gridToWorld_worldToGrid_not_id :
    gridToWorld (worldToGrid 0 0).x (worldToGrid 0 0).y = ⟨1, 1⟩ ∧
    (⟨1, 1⟩ : WorldPos) ≠ ⟨0, 0⟩ := by
  constructor
  · have h0 : worldToGrid 0 0 = ⟨0, 0⟩ := by
      unfold worldToGrid TILE_SIZE
      norm_num
    rw [h0]
    unfold gridToWorld TILE_SIZE
    norm_num
  · intro h
    have hx := congrArg WorldPos.x h
    norm_num at hx

/-- C9 (amended): the conversions are exact inverses in the
grid-to-world-to-grid direction: converting a tile's world-space center
back to grid coordinates recovers the tile. The converse direction
fails because `worldToGrid` collapses each tile's worth of world points
to one coordinate (see the counterexample). -/
theorem worldToGrid_gridToWorld (gx gy : Int) :
    worldToGrid (gridToWorld gx gy).x (gridToWorld gx gy).z = ⟨gx, gy⟩ := by
  have key : ∀ z : Int, Int.floor (((z : ℚ) * 2 + 2 / 2) / 2) = z := by
    intro z
    have h : ((z : ℚ) * 2 + 2 / 2) / 2 = (z : ℚ) + 1 / 2 := by ring
    have h2 : (Int.floor ((1 : ℚ) / 2) : Int) = 0 := by norm_num
    rw [h, Int.floor_int_add, h2]
    omega
  unfold worldToGrid gridToWorld TILE_SIZE
  dsimp only
  rw [key gx, key gy]

/-- C10: hunger is clamped at 0, and whenever `decreaseHunger` brings a
not-yet-over game's hunger to exactly 0 the returned state is game over
with the starvation message and an incremented `hungerDeaths` count. -/
theorem decreaseHunger_starvation (s : GameState) (amount : Int) :
    0 ≤ (decreaseHunger s amount).player.hunger ∧
    (s.gameOver = false → (decreaseHunger s amount).player.hunger = 0 →
      (decreaseHunger s amount).gameOver = true ∧
      (decreaseHunger s amount).deathMessage = "You starved to death!" ∧
      (decreaseHunger s amount).statistics.hungerDeaths = s.statistics.hungerDeaths + 1) := by
  simp only [decreaseHunger]
  split
  next h =>
    exact ⟨le_sup_left, fun _ _ => ⟨rfl, rfl, rfl⟩⟩
  next h =>
    refine ⟨le_sup_left, fun hgo hh => absurd ?_ h⟩
    exact ⟨hh, hgo⟩

/-- C10 witness: starving from one hunger point flips the game over. -/
theorem decreaseHunger_starvation_witness :
    starvingState.gameOver = false ∧
    (decreaseHunger starvingState 1).player.hunger = 0 ∧
    (decreaseHunger starvingState 1).gameOver = true ∧
    (decreaseHunger starvingState 1).deathMessage = "You starved to death!" ∧
    (decreaseHunger starvingState 1).statistics.hungerDeaths =
      starvingState.statistics.hungerDeaths + 1 := by
  have h := (decreaseHunger_starvation starvingState 1).2 (by decide) (by decide)
  exact ⟨by decide, by decide, h.1, h.2.1, h.2.2⟩

/-- A goal tile holding a wall is never walkable, whatever the grid. -/
theorem isWalkable_eq_false_of_wall (grid : Grid) (x y : Int)
    (h : tileAt grid x y = some Tile.wall) : isWalkable grid x y = false := by
  unfold tileAt at h
  split at h
  next hxy =>
    unfold isWalkable
    split
    next => rfl
    next hb =>
      rw [h]
      rfl
  next => simp at h

/-- A reconstructed path is empty (the popped node is the start) or
ends at the popped node's own position. -/
theorem ANode.buildPath_empty_or_last (node : ANode) :
    node.buildPath = [] ∨ node.buildPath.getLast? = some ⟨node.x, node.y⟩ := by
  cases node with
  | mk x y g h f parent =>
    cases parent with
    | none => left; rfl
    | some p =>
      right
      simp [ANode.buildPath, ANode.x, ANode.y]

/-- Whatever the A* loop returns is the empty path or a path whose
last tile is the goal. -/
theorem astarLoop_empty_or_last (fuel : Nat) (grid : Grid) (goal : Pos)
    (openSet : List ANode) (closedSet : List (Int × Int))
    (visited : List ((Int × Int) × ANode)) :
    astarLoop fuel grid goal openSet closedSet visited = [] ∨
    (astarLoop fuel grid goal openSet closedSet visited).getLast? = some goal := by
  induction fuel generalizing openSet closedSet visited with
  | zero => left; rfl
  | succ n ih =>
    obtain ⟨gx, gy⟩ := goal
    rw [astarLoop]
    split
    next => left; rfl
    next =>
      dsimp only
      split
      next hgoal =>
        rcases ANode.buildPath_empty_or_last
            (openSet.getD (lowestFIndex openSet) (ANode.mk 0 0 0 0 0 none)) with h | h
        · left; exact h
        · right
          rw [h, hgoal.1, hgoal.2]
      next => exact ih _ _ _

/-- Walkable reachability: the reflexive-transitive closure of taking a
4-directional step onto a walkable tile.  "The goal is unreachable"
means its position is not in this closure of the start position. -/
inductive ReachableFrom (grid : Grid) (start : Pos) : Pos → Prop
  | refl : ReachableFrom grid start start
  | step {p q : Pos} (hp : ReachableFrom grid start p)
      (hadj : q ∈ getAdjacentPositions p.x p.y)
      (hw : isWalkable grid q.x q.y = true) : ReachableFrom grid start q

/-- The minimum scan stays inside the list: when started with
`best < i`, the result is below `i` plus the scanned length. -/
theorem lowestFIndexAux_lt (l : List ANode) :
    ∀ (i best bestF : Nat), best < i → lowestFIndexAux l i best bestF < i + l.length := by
  induction l with
  | nil =>
    intro i best bestF h
    simpa [lowestFIndexAux] using h
  | cons n rest ih =>
    intro i best bestF h
    rw [lowestFIndexAux]
    split
    · have h2 := ih (i + 1) i n.f (Nat.lt_succ_self i)
      simp only [List.length_cons]
      omega
    · have h2 := ih (i + 1) best bestF (Nat.lt_succ_of_lt h)
      simp only [List.length_cons]
      omega

/-- On a nonempty open set, `lowestFIndex` is a valid index. -/
theorem lowestFIndex_lt_length (l : List ANode) (h : l ≠ []) : lowestFIndex l < l.length := by
  cases l with
  | nil => exact absurd rfl h
  | cons n rest =>
    have h2 := lowestFIndexAux_lt rest 1 0 n.f Nat.zero_lt_one
    rw [lowestFIndex]
    simp only [List.length_cons]
    omega

/-- `getD` at a valid index is a member of the list. -/
theorem getD_mem_of_lt {α : Type _} (l : List α) (i : Nat) (d : α) (h : i < l.length) :
    l.getD i d ∈ l := by
  rw [List.getD_eq_getElem?_getD, List.getElem?_eq_getElem h, Option.getD_some]
  exact List.getElem_mem h

/-- Replacing the value stored under one key leaves every lookup at a
different key unchanged. -/
theorem visitedLookup_set_ne (m : List ((Int × Int) × ANode)) (k sk : Int × Int) (v : ANode)
    (h : sk ≠ k) : visitedLookup (visitedSet m k v) sk = visitedLookup m sk := by
  have hk : ((k, v).1 == sk) = false := by simp [Ne.symm h]
  unfold visitedSet
  split
  next hc =>
    clear hc
    unfold visitedLookup
    induction m with
    | nil => rfl
    | cons e es ih =>
      simp only [List.map_cons]
      by_cases he : e.1 = k
      · rw [show (if (e.1 == k) = true then (k, v) else e) = (k, v) from by simp [he]]
        rw [List.find?_cons_of_neg _ (by simpa using Ne.symm h),
          List.find?_cons_of_neg _ (by simpa [he] using Ne.symm h)]
        exact ih
      · rw [show (if (e.1 == k) = true then (k, v) else e) = e from by simp [he]]
        by_cases hp : e.1 = sk
        · rw [List.find?_cons_of_pos _ (by simpa using hp), List.find?_cons_of_pos _ (by simpa using hp)]
        · rw [List.find?_cons_of_neg _ (by simpa using hp), List.find?_cons_of_neg _ (by simpa using hp)]
          exact ih
  next hc =>
    unfold visitedLookup
    rw [List.find?_append]
    have hnone : List.find? (fun e => e.1 == sk) [(k, v)] = none := by simp [hk]
    rw [hnone]
    simp

/-- Any node in the open set after one neighbour expansion was already
there, or is the freshly created node for this neighbour: parented on
`current`, at a walkable tile whose key was not yet in the visited map. -/
theorem mem_expandNeighbor_openSet (grid : Grid) (goal : Pos) (current : ANode)
    (closedSet : List (Int × Int)) (st : List ANode × List ((Int × Int) × ANode))
    (neighbor : Pos) (n : ANode)
    (hn : n ∈ (expandNeighbor grid goal current closedSet st neighbor).1) :
    n ∈ st.1 ∨
      ((∃ g h f, n = ANode.mk neighbor.x neighbor.y g h f (some current)) ∧
        isWalkable grid neighbor.x neighbor.y = true ∧
        visitedLookup st.2 (neighbor.x, neighbor.y) = none) := by
  obtain ⟨o, vis⟩ := st
  unfold expandNeighbor at hn
  dsimp only at hn ⊢
  split at hn
  next => exact Or.inl hn
  next hguard =>
    have hwalk : isWalkable grid neighbor.x neighbor.y = true := by
      have := eq_false_of_ne_true hguard
      simp only [Bool.or_eq_false_iff, Bool.not_eq_false'] at this
      exact this.2
    split at hn
    next existing hlook =>
      split at hn
      next => exact Or.inl hn
      next => exact Or.inl hn
    next hlook =>
      rcases List.mem_append.mp hn with h | h
      · exact Or.inl h
      · simp only [List.mem_singleton] at h
        exact Or.inr ⟨⟨_, _, _, h⟩, hwalk, hlook⟩

/-- Folding the neighbour expansion over a neighbour list only ever
adds nodes for members of that list, each parented on `current` and
sitting on a walkable tile. -/
theorem mem_foldl_expandNeighbor (grid : Grid) (goal : Pos) (current : ANode)
    (closedSet : List (Int × Int)) :
    ∀ (neighbors : List Pos) (st : List ANode × List ((Int × Int) × ANode)) (n : ANode),
    n ∈ (neighbors.foldl (expandNeighbor grid goal current closedSet) st).1 →
    n ∈ st.1 ∨ ∃ q ∈ neighbors,
      (∃ g h f, n = ANode.mk q.x q.y g h f (some current)) ∧
        isWalkable grid q.x q.y = true := by
  intro neighbors
  induction neighbors with
  | nil => intro st n hn; exact Or.inl hn
  | cons q qs ih =>
    intro st n hn
    simp only [List.foldl_cons] at hn
    rcases ih _ n hn with h | ⟨q2, hq2, hrest⟩
    · rcases mem_expandNeighbor_openSet grid goal current closedSet st q n h with h2 | ⟨hnode, hwalk, _⟩
      · exact Or.inl h2
      · exact Or.inr ⟨q, List.mem_cons_self q qs, hnode, hwalk⟩
    · exact Or.inr ⟨q2, List.mem_cons_of_mem q hq2, hrest⟩

/-- One neighbour expansion preserves the start's visited-map entry
(some node with `g = 0`): the start key is never overwritten — an
overwrite needs a strictly smaller `g`, impossible below 0 — and never
re-created, its key being present already. -/
theorem expandNeighbor_preserves_start_entry (grid : Grid) (goal : Pos) (current : ANode)
    (closedSet : List (Int × Int)) (st : List ANode × List ((Int × Int) × ANode))
    (neighbor : Pos) (sk : Int × Int)
    (hI : ∃ v, visitedLookup st.2 sk = some v ∧ v.g = 0) :
    ∃ v, visitedLookup (expandNeighbor grid goal current closedSet st neighbor).2 sk = some v ∧
      v.g = 0 := by
  obtain ⟨o, vis⟩ := st
  obtain ⟨v, hv, hvg⟩ := hI
  unfold expandNeighbor
  dsimp only at hv ⊢
  split
  next => exact ⟨v, hv, hvg⟩
  next hguard =>
    cases hlook : visitedLookup vis (neighbor.x, neighbor.y) with
    | some existing =>
      simp only [hlook]
      split
      next hlt =>
        have hkne : (neighbor.x, neighbor.y) ≠ sk := by
          intro he
          rw [he, hv] at hlook
          injection hlook with h1
          subst h1
          omega
        rw [visitedLookup_set_ne vis _ sk _ (Ne.symm hkne)]
        exact ⟨v, hv, hvg⟩
      next => exact ⟨v, hv, hvg⟩
    | none =>
      simp only [hlook]
      have hkne : (neighbor.x, neighbor.y) ≠ sk := by
        intro he
        rw [he, hv] at hlook
        cases hlook
      rw [visitedLookup_set_ne vis _ sk _ (Ne.symm hkne)]
      exact ⟨v, hv, hvg⟩

/-- Folding the neighbour expansion preserves the start's visited-map
entry, and every node it adds to the open set lies at a key different
from the start's. -/
theorem foldl_expandNeighbor_start_inv (grid : Grid) (goal : Pos) (current : ANode)
    (closedSet : List (Int × Int)) (sk : Int × Int) :
    ∀ (neighbors : List Pos) (st : List ANode × List ((Int × Int) × ANode)),
    (∃ v, visitedLookup st.2 sk = some v ∧ v.g = 0) →
    (∃ v, visitedLookup
        ((neighbors.foldl (expandNeighbor grid goal current closedSet) st).2) sk = some v ∧
      v.g = 0) ∧
    (∀ n ∈ (neighbors.foldl (expandNeighbor grid goal current closedSet) st).1,
      n ∈ st.1 ∨ ∃ q : Pos,
        (∃ g h f, n = ANode.mk q.x q.y g h f (some current)) ∧ (q.x, q.y) ≠ sk) := by
  intro neighbors
  induction neighbors with
  | nil => intro st hI; exact ⟨hI, fun n hn => Or.inl hn⟩
  | cons q qs ih =>
    intro st hI
    simp only [List.foldl_cons]
    have hI2 := expandNeighbor_preserves_start_entry grid goal current closedSet st q sk hI
    obtain ⟨hIfold, hmem⟩ := ih (expandNeighbor grid goal current closedSet st q) hI2
    refine ⟨hIfold, ?_⟩
    intro n hn
    rcases hmem n hn with h | hcreated
    · rcases mem_expandNeighbor_openSet grid goal current closedSet st q n h with
        h2 | ⟨hnode, _, hlooknone⟩
      · exact Or.inl h2
      · obtain ⟨v, hv, _⟩ := hI
        refine Or.inr ⟨q, hnode, ?_⟩
        intro he
        rw [he, hv] at hlooknone
        cases hlooknone
    · exact Or.inr hcreated

/-- When the goal is not walkably reachable from the start, the A* loop
exhausts its open set without ever popping the goal: every open node
stays inside the reachable set, so the loop returns the empty path. -/
theorem astarLoop_eq_nil_of_unreachable (grid : Grid) (s goal : Pos)
    (hgoal : ¬ReachableFrom grid s goal) :
    ∀ (fuel : Nat) (openSet : List ANode) (closedSet : List (Int × Int))
      (visited : List ((Int × Int) × ANode)),
    (∀ n ∈ openSet, ReachableFrom grid s ⟨n.x, n.y⟩) →
    astarLoop fuel grid goal openSet closedSet visited = [] := by
  intro fuel
  induction fuel with
  | zero => intro _ _ _ _; rfl
  | succ m ih =>
    intro openSet closedSet visited hinv
    rw [astarLoop]
    split
    next => rfl
    next hne =>
      dsimp only
      have hcur : openSet.getD (lowestFIndex openSet) (ANode.mk 0 0 0 0 0 none) ∈ openSet :=
        getD_mem_of_lt _ _ _
          (lowestFIndex_lt_length _ (by simpa [List.isEmpty_iff] using hne))
      split
      next hg =>
        exfalso
        apply hgoal
        have h2 := hinv _ hcur
        rw [hg.1, hg.2] at h2
        exact h2
      next hg =>
        apply ih
        intro n hn
        rcases mem_foldl_expandNeighbor grid goal _ _ _ _ n hn with h | ⟨q, hq, ⟨g2, h2, f2, hnode⟩, hwalk⟩
        · exact hinv n (List.mem_of_mem_eraseIdx h)
        · subst hnode
          exact ReachableFrom.step (hinv _ hcur) hq hwalk

/-- The start position never occurs in any path the A* loop returns:
the start's visited entry (cost 0) is never displaced, so no node is
ever created at the start's key, and parent chains therefore avoid it. -/
theorem astarLoop_start_not_mem (grid : Grid) (goal s : Pos) :
    ∀ (fuel : Nat) (openSet : List ANode) (closedSet : List (Int × Int))
      (visited : List ((Int × Int) × ANode)),
    (∀ n ∈ openSet, s ∉ n.buildPath) →
    (∃ v, visitedLookup visited (s.x, s.y) = some v ∧ v.g = 0) →
    s ∉ astarLoop fuel grid goal openSet closedSet visited := by
  intro fuel
  induction fuel with
  | zero =>
    intro _ _ _ _ _
    rw [astarLoop]
    exact List.not_mem_nil s
  | succ m ih =>
    intro openSet closedSet visited hOK hI
    rw [astarLoop]
    split
    next => exact List.not_mem_nil s
    next hne =>
      dsimp only
      have hcur : openSet.getD (lowestFIndex openSet) (ANode.mk 0 0 0 0 0 none) ∈ openSet :=
        getD_mem_of_lt _ _ _
          (lowestFIndex_lt_length _ (by simpa [List.isEmpty_iff] using hne))
      split
      next hg => exact hOK _ hcur
      next hg =>
        obtain ⟨hI2, hmem⟩ := foldl_expandNeighbor_start_inv grid goal _ _ (s.x, s.y) _
          (openSet.eraseIdx (lowestFIndex openSet), visited) hI
        apply ih
        · intro n hn
          rcases hmem n hn with h | ⟨q, ⟨g2, h2, f2, hnode⟩, hqs⟩
          · exact hOK n (List.mem_of_mem_eraseIdx h)
          · subst hnode
            simp only [ANode.buildPath]
            intro hmem2
            rcases List.mem_append.mp hmem2 with h3 | h3
            · exact hOK _ hcur h3
            · simp only [List.mem_singleton] at h3
              apply hqs
              rw [h3]
        · exact hI2

/-- C2: `findPath` returns the empty path whenever the goal tile is
unwalkable (out of bounds or not a floor/door/stairs tile) — in
particular whenever the goal tile is a wall — and whenever the goal is
unreachable from the start through walkable 4-neighbour steps; every
path it returns excludes the start tile; any nonempty path it returns
ends at the goal tile; and on the 3×3 all-floor grid the path from
(0,0) to (2,0) is exactly [(1,0), (2,0)]. -/
theorem findPath_spec :
    (∀ (grid : Grid) (start goal : Pos),
      isWalkable grid goal.x goal.y = false → findPath grid start goal = []) ∧
    (∀ (grid : Grid) (start goal : Pos),
      tileAt grid goal.x goal.y = some Tile.wall → findPath grid start goal = []) ∧
    (∀ (grid : Grid) (start goal : Pos),
      ¬ReachableFrom grid start goal → findPath grid start goal = []) ∧
    (∀ (grid : Grid) (start goal : Pos), start ∉ findPath grid start goal) ∧
    (∀ (grid : Grid) (start goal : Pos),
      findPath grid start goal = [] ∨ (findPath grid start goal).getLast? = some goal) ∧
    findPath floorGrid3 ⟨0, 0⟩ ⟨2, 0⟩ = [⟨1, 0⟩, ⟨2, 0⟩] := by
  refine ⟨?_, ?_, ?_, ?_, ?_, by decide⟩
  · intro grid s g h
    unfold findPath
    rw [h]
    rfl
  · intro grid s g h
    unfold findPath
    rw [isWalkable_eq_false_of_wall grid g.x g.y h]
    rfl
  · intro grid s g h
    simp only [findPath]
    split
    next => rfl
    next hw =>
      apply astarLoop_eq_nil_of_unreachable grid s g h
      intro n hn
      simp only [List.mem_singleton] at hn
      subst hn
      exact ReachableFrom.refl
  · intro grid s g
    simp only [findPath]
    split
    next => exact List.not_mem_nil s
    next hw =>
      apply astarLoop_start_not_mem grid g s
      · intro n hn
        simp only [List.mem_singleton] at hn
        subst hn
        simp [ANode.buildPath]
      · exact ⟨ANode.mk s.x s.y 0 (manhattanDistance s.x s.y g.x g.y)
          (manhattanDistance s.x s.y g.x g.y) none, by simp [visitedLookup], rfl⟩
  · intro grid s g
    unfold findPath
    split
    next => left; rfl
    next => exact astarLoop_empty_or_last _ grid g _ _ _

/-- C2 witness: the wall goal, an out-of-bounds goal, the wall-blocked
(walkable but unreachable) goal, and the start tile's exclusion from
the concrete 3×3 path. -/
theorem findPath_spec_witness :
    (tileAt wallGoalGrid 2 0 = some Tile.wall ∧ findPath wallGoalGrid ⟨0, 0⟩ ⟨2, 0⟩ = []) ∧
    (isWalkable floorGrid3 0 3 = false ∧ findPath floorGrid3 ⟨0, 0⟩ ⟨0, 3⟩ = []) ∧
    (¬ReachableFrom blockedGrid ⟨0, 0⟩ ⟨2, 0⟩ ∧ findPath blockedGrid ⟨0, 0⟩ ⟨2, 0⟩ = []) ∧
    (⟨0, 0⟩ : Pos) ∉ findPath floorGrid3 ⟨0, 0⟩ ⟨2, 0⟩ := by
  have hunreach : ¬ReachableFrom blockedGrid ⟨0, 0⟩ ⟨2, 0⟩ := by
    intro h
    have key : ∀ p : Pos, ReachableFrom blockedGrid ⟨0, 0⟩ p → p = ⟨0, 0⟩ := by
      intro p hp
      induction hp with
      | refl => rfl
      | step hp hadj hw ih =>
        subst ih
        simp [getAdjacentPositions] at hadj
        rcases hadj with h1 | h1 | h1 | h1 <;> subst h1 <;> exact absurd hw (by decide)
    exact absurd (key ⟨2, 0⟩ h) (by decide)
  exact ⟨⟨by decide, findPath_spec.2.1 wallGoalGrid ⟨0, 0⟩ ⟨2, 0⟩ (by decide)⟩,
    ⟨by decide, findPath_spec.1 floorGrid3 ⟨0, 0⟩ ⟨0, 3⟩ (by decide)⟩,
    ⟨hunreach, findPath_spec.2.2.1 blockedGrid ⟨0, 0⟩ ⟨2, 0⟩ hunreach⟩,
    findPath_spec.2.2.2.1 floorGrid3 ⟨0, 0⟩ ⟨2, 0⟩⟩

/-- C3 (counterexample): with the movement threshold crossed and one
active strength effect, `advanceTurn` leaves the effect list untouched
(still 5 turns remaining) — it is not the decremented-and-filtered list
the claim requires, because nothing in the turn advance invokes
`updateStatusEffects`. -/
theorem advanceTurn_skips_status_effects :
    checkTurnAdvancement exampleState = true ∧
    (advanceTurn exampleState).player.statusEffects = [createStatusEffect "strength" 5] ∧
    (advanceTurn exampleState).player.statusEffects ≠
      updateStatusEffects exampleState.player.statusEffects := by
  refine ⟨by decide, by decide, by decide⟩

/-- C3 (amended): for every state whose accumulated movement has
crossed the effective threshold, advancing the turn increments the turn
counter by 1, applies the hunger decay of `HUNGER_RATE`, and resets
accumulated movement to 0 — but it does not touch the active status
effects' turns-remaining. -/
theorem advanceTurn_amended (s : GameState) (h : checkTurnAdvancement s = true) :
    (advanceTurn s).turnCount = s.turnCount + 1 ∧
    (advanceTurn s).player.hunger = max 0 (s.player.hunger - HUNGER_RATE) ∧
    (advanceTurn s).accumulatedMovement = 0 ∧
    (advanceTurn s).player.statusEffects = s.player.statusEffects := by
  simp only [advanceTurn, resetAccumulatedMovement, decreaseHunger, incrementTurn]
  split <;> simp

/-- C3 (amended) witness at the concrete threshold-crossed state. -/
theorem advanceTurn_amended_witness :
    checkTurnAdvancement exampleState = true ∧
    ((advanceTurn exampleState).turnCount = exampleState.turnCount + 1 ∧
     (advanceTurn exampleState).player.hunger =
       max 0 (exampleState.player.hunger - HUNGER_RATE) ∧
     (advanceTurn exampleState).accumulatedMovement = 0 ∧
     (advanceTurn exampleState).player.statusEffects = exampleState.player.statusEffects) :=
  ⟨by decide, advanceTurn_amended exampleState (by decide)⟩

/-- C6 (counterexample): the player-attack branch of `interact()` in
the game controller subtracts damage from the enemy's hp without any
clamp: an enemy at 3 hp taking 10 damage ends at hp = −7, violating the
claimed `0 ≤ hp` invariant (and leaving `alive = false` with `hp ≠ 0`). -/
theorem interactAttack_breaks_hp_invariant :
    (interactApplyAttack ⟨3, 10, true⟩ 10).hp = -7 ∧
    ¬(0 ≤ (interactApplyAttack ⟨3, 10, true⟩ 10).hp) ∧
    (interactApplyAttack ⟨3, 10, true⟩ 10).isAlive = false := by decide

/-- C6 (amended): the entity-manager and game-state mutators do
maintain the invariant — `damageEntity` keeps hp in [0, maxHp] with
`isAlive` true exactly on nonzero hp, `damagePlayer` keeps hp in
[0, maxHp] and flags game over when hp reaches 0, and `healPlayer`
keeps hp in [0, maxHp]; only the controller's direct player-attack
interaction path bypasses the clamp (see the counterexample). -/
theorem hp_invariant_amended :
    (∀ (e : Entity) (damage : Int), 0 ≤ damage → 0 ≤ e.hp → e.hp ≤ e.maxHp →
      (0 ≤ (damageEntity e damage).hp ∧
        (damageEntity e damage).hp ≤ (damageEntity e damage).maxHp) ∧
      ((damageEntity e damage).isAlive = true ↔ (damageEntity e damage).hp ≠ 0)) ∧
    (∀ (s : GameState) (damage : Int),
      0 ≤ damage → 0 ≤ s.player.hp → s.player.hp ≤ s.player.maxHp →
      (0 ≤ (damagePlayer s damage).player.hp ∧
        (damagePlayer s damage).player.hp ≤ (damagePlayer s damage).player.maxHp) ∧
      ((damagePlayer s damage).player.hp = 0 → s.gameOver = false →
        (damagePlayer s damage).gameOver = true)) ∧
    (∀ (s : GameState) (amount : Int),
      0 ≤ amount → 0 ≤ s.player.hp → s.player.hp ≤ s.player.maxHp →
      0 ≤ (healPlayer s amount).player.hp ∧
        (healPlayer s amount).player.hp ≤ (healPlayer s amount).player.maxHp) := by
  refine ⟨?_, ?_, ?_⟩
  · intro e damage hd h0 h1
    simp only [damageEntity]
    refine ⟨⟨le_sup_left, sup_le (le_trans h0 h1) (le_trans (sub_le_self _ hd) h1)⟩, ?_⟩
    simp only [decide_eq_true_eq]
    have h2 : (0 : Int) ≤ 0 ⊔ (e.hp - damage) := le_sup_left
    exact ⟨fun hlt => ne_of_gt hlt, fun hne => lt_of_le_of_ne h2 (Ne.symm hne)⟩
  · intro s damage hd h0 h1
    simp only [damagePlayer]
    split
    next h =>
      exact ⟨⟨le_sup_left, sup_le (le_trans h0 h1) (le_trans (sub_le_self _ hd) h1)⟩,
        fun _ _ => rfl⟩
    next h =>
      exact ⟨⟨le_sup_left, sup_le (le_trans h0 h1) (le_trans (sub_le_self _ hd) h1)⟩,
        fun hh hgo => absurd ⟨hh, hgo⟩ h⟩
  · intro s amount ha h0 h1
    simp only [healPlayer]
    exact ⟨le_min (le_trans h0 h1) (add_nonneg h0 ha), min_le_left _ _⟩

/-- C6 (amended) witness: the three clamping operations at concrete inputs. -/
theorem hp_invariant_amended_witness :
    ((0 ≤ (damageEntity ⟨5, 10, true⟩ 2).hp ∧
       (damageEntity ⟨5, 10, true⟩ 2).hp ≤ (damageEntity ⟨5, 10, true⟩ 2).maxHp) ∧
     ((damageEntity ⟨5, 10, true⟩ 2).isAlive = true ↔ (damageEntity ⟨5, 10, true⟩ 2).hp ≠ 0)) ∧
    ((0 ≤ (damagePlayer exampleState 25).player.hp ∧
       (damagePlayer exampleState 25).player.hp ≤ (damagePlayer exampleState 25).player.maxHp) ∧
     ((damagePlayer exampleState 25).player.hp = 0 → exampleState.gameOver = false →
       (damagePlayer exampleState 25).gameOver = true)) ∧
    (0 ≤ (healPlayer exampleState 7).player.hp ∧
      (healPlayer exampleState 7).player.hp ≤ (healPlayer exampleState 7).player.maxHp) :=
  ⟨hp_invariant_amended.1 ⟨5, 10, true⟩ 2 (by decide) (by decide) (by decide),
   hp_invariant_amended.2.1 exampleState 25 (by decide) (by decide) (by decide),
   hp_invariant_amended.2.2 exampleState 7 (by decide) (by decide) (by decide)⟩

/-- The status-effect uniqueness invariant: no two effects in the list
share a type. -/
def uniqueEffectTypes (l : List StatusEffect) : Prop :=
  l.Pairwise (fun a b => a.type ≠ b.type)

/-- Replacing the element at index `i` with an effect of the same type
preserves the uniqueness invariant. -/
theorem uniqueEffectTypes_set (l : List StatusEffect) (i : Nat) (e old : StatusEffect)
    (hget : l[i]? = some old) (hty : old.type = e.type)
    (h : uniqueEffectTypes l) : uniqueEffectTypes (l.set i e) := by
  induction l generalizing i with
  | nil => simp at hget
  | cons a as ih =>
    cases i with
    | zero =>
      simp only [List.getElem?_cons_zero, Option.some.injEq] at hget
      subst hget
      rw [List.set_cons_zero]
      cases h with
      | cons ha has =>
        refine List.Pairwise.cons ?_ has
        intro b hb
        rw [← hty]
        exact ha b hb
    | succ j =>
      simp only [List.getElem?_cons_succ] at hget
      rw [List.set_cons_succ]
      cases h with
      | cons ha has =>
        refine List.Pairwise.cons ?_ (ih j hget has)
        intro b hb
        rcases List.mem_or_eq_of_mem_set hb with hb | rfl
        · exact ha b hb
        · rw [← hty]
          exact ha old (List.getElem?_mem hget)

/-- C4: `addStatusEffect` preserves the at-most-one-instance-per-type
invariant; when an effect of the same type already exists it leaves the
list unchanged unless the incoming duration is strictly greater than
the existing turns-remaining (in which case it replaces that instance
in place); and concretely, a second speed effect of duration 5 added
after one of duration 10, with no turns elapsed, leaves the
turns-remaining at 10. -/
theorem addStatusEffect_spec :
    (∀ (l : List StatusEffect) (e : StatusEffect),
      uniqueEffectTypes l → uniqueEffectTypes (addStatusEffect l e)) ∧
    (∀ (l : List StatusEffect) (e existing : StatusEffect) (i : Nat),
      l.findIdx? (fun x => x.type == e.type) = some i → l[i]? = some existing →
      (e.duration ≤ existing.turnsRemaining → addStatusEffect l e = l) ∧
      (existing.turnsRemaining < e.duration → addStatusEffect l e = l.set i e)) ∧
    addStatusEffect [createStatusEffect "speed" 10] (createStatusEffect "speed" 5) =
      [createStatusEffect "speed" 10] := by
  refine ⟨?_, ?_, by decide⟩
  · intro l e hu
    rcases hfind : l.findIdx? (fun x => x.type == e.type) with _ | i
    · simp only [addStatusEffect, hfind]
      refine List.pairwise_append.mpr ⟨hu, List.pairwise_singleton _ _, ?_⟩
      intro a ha b hb
      simp only [List.mem_singleton] at hb
      subst hb
      have hfalse := List.findIdx?_eq_none_iff.mp hfind a ha
      simpa using hfalse
    · rcases hget : l[i]? with _ | existing
      · simp only [addStatusEffect, hfind, hget]
        exact hu
      · simp only [addStatusEffect, hfind, hget]
        split
        next hdur =>
          obtain ⟨hlen, hpi, -⟩ := List.findIdx?_eq_some_iff_getElem.mp hfind
          have hel : l[i] = existing := by
            rw [List.getElem?_eq_getElem hlen] at hget
            exact Option.some.inj hget
          rw [hel] at hpi
          exact uniqueEffectTypes_set l i e existing hget (by simpa using hpi) hu
        next => exact hu
  · intro l e existing i hfind hget
    simp only [addStatusEffect, hfind, hget]
    constructor
    · intro hle
      rw [if_neg (not_lt.mpr hle)]
    · intro hlt
      rw [if_pos hlt]

/-- C4 witness: the invariant-preservation and no-replacement branches
at the concrete speed-effect inputs. -/
theorem addStatusEffect_spec_witness :
    uniqueEffectTypes
      (addStatusEffect [createStatusEffect "speed" 10] (createStatusEffect "speed" 5)) ∧
    addStatusEffect [createStatusEffect "speed" 10] (createStatusEffect "speed" 5) =
      [createStatusEffect "speed" 10] :=
  ⟨addStatusEffect_spec.1 [createStatusEffect "speed" 10] (createStatusEffect "speed" 5)
      (by simp [uniqueEffectTypes]),
   (addStatusEffect_spec.2.1 [createStatusEffect "speed" 10] (createStatusEffect "speed" 5)
      (createStatusEffect "speed" 10) 0 (by decide) (by decide)).1 (by decide)⟩

/-- C8: the end-to-end scenario at seed 42, depth 1 (default 40×40
geometry): the generator returns a dungeon with between `MIN_ROOMS` and
`MAX_ROOMS` rooms, a descent position inside the last accepted room's
bounds, and no enemy spawn on the descent tile. -/
theorem generateDungeon_endToEnd :
    (generateDungeon 42 1 40 40).isSome = true ∧
    MIN_ROOMS ≤ dungeon42.rooms.length ∧ dungeon42.rooms.length ≤ MAX_ROOMS ∧
    (lastRoom42.x ≤ dungeon42.stairsPosition.1 ∧
      dungeon42.stairsPosition.1 < lastRoom42.x + lastRoom42.width ∧
      lastRoom42.y ≤ dungeon42.stairsPosition.2 ∧
      dungeon42.stairsPosition.2 < lastRoom42.y + lastRoom42.height) ∧
    (∀ s ∈ dungeon42.enemySpawns, s.position ≠ dungeon42.stairsPosition) := by
  have hsome : (generateDungeon 42 1 40 40).isSome = true := by decide
  have hrooms : dungeon42.rooms.length = 7 := by decide
  have hstairs : dungeon42.stairsPosition = (4, 4) := by decide
  have hlast : lastRoom42 = ⟨2, 2, 4, 5⟩ := by decide
  have hspawns : dungeon42.enemySpawns = [⟨"GOBLIN", (3, 23), 1⟩] := by decide
  refine ⟨hsome, ?_, ?_, ?_, ?_⟩
  · rw [hrooms]; decide
  · rw [hrooms]; decide
  · rw [hstairs, hlast]; decide
  · rw [hspawns, hstairs]
    intro s hs
    simp only [List.mem_singleton] at hs
    subst hs
    decide

end Rogue
